import Mathlib

/-!
# Verification of the gocb-example scan-transform-load pipeline

A shallow embedding of the Go migration pipeline (the de-duplicated, most
complete variant of the source).  The target/source buckets are modelled as
association lists from document id to content; the gocb store client is
modelled per its documented behaviour: `Insert` is an unconditional create
that fails with key-already-exists, `Do` over a list of `InsertOp`s attempts
every item independently and records a per-item outcome in `InsertOp.Err`.
-/

namespace GocbExample

/-- Error values produced by the store client (gocb).  They are plain error
values: in particular a per-item bulk error such as key-already-exists does
not carry the document id it refers to. -/
inductive StoreErr where
  | keyAlreadyExists
  | tempFail (code : Nat)
deriving DecidableEq, Repr

/-- Key-based lookup in an association list (the in-memory model of a
bucket keyed by document id): the value of the first entry whose key
matches, as `List.find?` would locate it. -/
def lookupVal {β : Type} : List (String × β) → String → Option β
  | [], _ => none
  | kv :: rest, k => if kv.1 == k then some kv.2 else lookupVal rest k

/-- Apply `f` to the value stored under key `k` (a partial-document
mutation of an existing document: other documents are untouched and a
missing `k` leaves the list unchanged). -/
def updateVal {β : Type} (b : List (String × β)) (k : String) (f : β → β) :
    List (String × β) :=
  b.map (fun kv => if kv.1 == k then (kv.1, f kv.2) else kv)

/-- A bucket holding document contents, keyed by document id. -/
abbrev Store (α : Type) := List (String × α)

/-- Look a document up by id. -/
def storeGet {α : Type} (s : Store α) (k : String) : Option α :=
  lookupVal s k

/-- `bucket.Insert(docId, doc, 0)`: unconditional create.  Fails with
key-already-exists when the id is present and never overwrites. -/
def bucketInsert {α : Type} (s : Store α) (k : String) (v : α) :
    Store α × Option StoreErr :=
  match storeGet s k with
  | some _ => (s, some .keyAlreadyExists)
  | none => (s ++ [(k, v)], none)

/-- `bucket.Do(items)` over a list of `InsertOp`s: each item is attempted
independently and its outcome is recorded (the `InsertOp.Err` field);
items that succeed remain written even when a sibling item fails. -/
def bulkInsert {α : Type} (s : Store α) (items : List (String × α)) :
    Store α × List (String × Option StoreErr) :=
  match items with
  | [] => (s, [])
  | (k, v) :: rest =>
    let r1 := bucketInsert s k v
    let r2 := bulkInsert r1.1 rest
    (r2.1, (k, r1.2) :: r2.2)

/-- The errors `copyEachDoc` (the batch step of `CopyBucketWithCallback`)
can return.  `insertOne` is the single-item path's
`fmt.Errorf("Error inserting doc id: %v.  Err: %v", docIds[0], err)`,
which names the failing id; `bulkItem` is the bulk path's
`return insertItem.Err`, i.e. the raw first per-item error, which names no
id; `bulkDo` is a transport-level error from `bucket.Do` itself (never
produced by the in-memory store model, which always reaches the per-item
outcomes); `preHook`/`postHook` are errors returned by the two callbacks. -/
inductive CopyErr (ε : Type) where
  | preHook (e : ε)
  | insertOne (docId : String) (cause : StoreErr)
  | bulkDo (cause : StoreErr)
  | bulkItem (cause : StoreErr)
  | postHook (e : ε)
deriving DecidableEq, Repr

/-- The document ids an error value identifies to the caller: the
single-item path wraps the failing id into its message; every other error
value carries no id. -/
def CopyErr.reportedIds {ε : Type} : CopyErr ε → List String
  | .insertOne docId _ => [docId]
  | _ => []

/-- "Make sure all bulk ops succeeded": the loop over `items` that returns
the first non-nil `insertItem.Err`. -/
def firstBulkErr : List (String × Option StoreErr) → Option StoreErr
  | [] => none
  | (_, some e) :: _ => some e
  | (_, none) :: rest => firstBulkErr rest

/-- The ids of the bulk items whose per-item outcome was a failure. -/
def bulkFailedIds (results : List (String × Option StoreErr)) : List String :=
  results.filterMap (fun kr => if kr.2.isSome then some kr.1 else none)

/-- What one invocation of the `copyEachDoc` closure did: the resulting
bucket, the insert attempts issued to the store (with their per-item
outcomes), the arguments handed to `postInsertCallback` when it was
invoked, and the returned error. -/
structure CopyStepResult (α ε : Type) where
  store : Store α
  attempts : List (String × Option StoreErr)
  postInput : Option (List String × List α)
  err : Option (CopyErr ε)
deriving Repr

/-- The write part of `copyEachDoc`: `switch len(docIds)` — `case 1` issues
one `Insert` and wraps a failure with the doc id; `default` builds one
`InsertOp` per item, runs `bucket.Do`, then returns the first non-nil
`insertItem.Err` (unwrapped, no id). -/
def copyLoadBatch {α ε : Type} [Inhabited α] (s : Store α)
    (docIds : List String) (docs : List α) :
    Store α × List (String × Option StoreErr) × Option (CopyErr ε) :=
  match docIds with
  | [docId0] =>
    let r := bucketInsert s docId0 (docs.getD 0 default)
    match r.2 with
    | some cause => (r.1, [(docId0, some cause)], some (.insertOne docId0 cause))
    | none => (r.1, [(docId0, none)], none)
  | _ =>
    let r := bulkInsert s (docIds.zip docs)
    match firstBulkErr r.2 with
    | some cause => (r.1, r.2, some (.bulkItem cause))
    | none => (r.1, r.2, none)

/-- The `copyEachDoc` closure of `CopyBucketWithCallback`: run the
pre-insert callback (its output replaces `docIds`/`docs`), write the batch
via `copyLoadBatch`, then invoke the post-insert callback on the written
ids and docs. -/
def copyEachDoc {α ε : Type} [Inhabited α]
    (preInsertCallback : Option (List String → List α → Except ε (List String × List α)))
    (postInsertCallback : Option (List String → List α → Option ε))
    (s : Store α) (docIds : List String) (docs : List α) : CopyStepResult α ε :=
  let hooked : Except ε (List String × List α) :=
    match preInsertCallback with
    | none => .ok (docIds, docs)
    | some f => f docIds docs
  match hooked with
  | .error e => ⟨s, [], none, some (.preHook e)⟩
  | .ok (ids, ds) =>
    let r := copyLoadBatch s ids ds
    match r.2.2 with
    | some e => ⟨r.1, r.2.1, none, some e⟩
    | none =>
      match postInsertCallback with
      | none => ⟨r.1, r.2.1, none, none⟩
      | some post => ⟨r.1, r.2.1, some (ids, ds), (post ids ds).map .postHook⟩

/-! ## The paginated view scan (`ForEachDocIdBucketViews`)

The collection is modelled as the fixed list of rows the view emits (one
`(id, value)` pair per document); the claims assume well-formed rows of an
unchanged dataset, so the per-row id/value extraction checks of the Go code
never fire and `ExecuteViewQuery` with `Limit(P)`/`Skip(skip)` returns
`(rows.drop skip).take P`.  Alongside the Go function's return value we
record the trace of `docProcessor` invocations (the batches it was handed),
which is the observable behaviour the claims speak about. -/

/-- The page loop of `ForEachDocIdBucketViews`: fetch
`(rows.drop skip).take P`; if the page has zero rows, return nil
(end-of-scan) without invoking the processor; otherwise collect the page's
parallel id/content arrays, bump `skip` by the number of rows processed,
invoke `docProcessor`, and continue with the next page unless it errored. -/
def forEachViewsAux {α ε : Type} (P : Nat) (rows : List (String × α))
    (docProcessor : List String → List α → Option ε) (skip : Nat) :
    List (List String × List α) × Option ε :=
  if hpage : ((rows.drop skip).take P).length = 0 then
    ([], none)
  else
    match docProcessor (((rows.drop skip).take P).map Prod.fst)
        (((rows.drop skip).take P).map Prod.snd) with
    | some e =>
      ([((((rows.drop skip).take P).map Prod.fst),
         (((rows.drop skip).take P).map Prod.snd))], some e)
    | none =>
      ((((rows.drop skip).take P).map Prod.fst,
        ((rows.drop skip).take P).map Prod.snd) ::
          (forEachViewsAux P rows docProcessor
            (skip + ((rows.drop skip).take P).length)).1,
       (forEachViewsAux P rows docProcessor
         (skip + ((rows.drop skip).take P).length)).2)
termination_by rows.length - skip
decreasing_by
  all_goals simp only [List.length_take, List.length_drop] at hpage ⊢
  all_goals omega

/-- `ForEachDocIdBucketViews(docProcessor, bucket)`: the scan starts at
`skip = 0`; the first component is the trace of batches handed to the
processor, the second the function's returned error. -/
def ForEachDocIdBucketViews {α ε : Type} (P : Nat) (rows : List (String × α))
    (docProcessor : List String → List α → Option ε) :
    List (List String × List α) × Option ε :=
  forEachViewsAux P rows docProcessor 0

/-- The batches an error-free scan hands over: the successive pages of the
collection (used for the concurrent wrapper, whose `viewResultsProcessor`
only enqueues and never fails). -/
def viewPages {α : Type} (P : Nat) (rows : List (String × α)) :
    List (List String × List α) :=
  (ForEachDocIdBucketViews P rows (fun _ _ => (none : Option Empty))).1

/-- The page sizes of a scan over `M` rows with page size `P` (arithmetic
shadow of `viewPages`, in closed form): `M / P` full pages followed by one
partial page of `M % P` rows when `M` is not a multiple of `P`. -/
def chunkSizes (P M : Nat) : List Nat :=
  if P = 0 then [] else
    List.replicate (M / P) P ++ (if M % P = 0 then [] else [M % P])

/-! ## The concurrent wrapper (`ForEachDocIdBucketViewsConcurrent`) -/

/-- How a run of the concurrent scan ends: normal return (`ok` or a
returned error `err`), or a `panic` raised inside a worker goroutine
(`panicked`, carrying the processor error the panic message is built
from). -/
inductive RunOutcome (ε : Type) where
  | ok
  | err (e : ε)
  | panicked (e : ε)
deriving DecidableEq, Repr

/-- The worker goroutine loop: pull each queued batch in order, invoke
`docProcessor` on it (threading the shared bucket state `st`), and on the
first processor error `panic` — the error is not propagated back.  With
`numGoRoutinesConcurrentViewResult = 1` there is exactly one such worker,
so the batches are processed sequentially in queue order. -/
def runWorker {α ε σ : Type}
    (docProcessor : σ → List String → List α → σ × Option ε) (st : σ) :
    List (List String × List α) → σ × RunOutcome ε
  | [] => (st, .ok)
  | (ids, ds) :: rest =>
    let r := docProcessor st ids ds
    match r.2 with
    | some e => (r.1, .panicked e)
    | none => runWorker docProcessor r.1 rest

/-- `ForEachDocIdBucketViewsConcurrent(docProcessor, bucket)`: the pager
feeds every page to `viewResultsProcessor`, which only enqueues batches and
always returns nil, so the pager itself never aborts; the single worker
processes the queued batches and panics on the first processor error.  The
function's own return value is the pager's error (always nil here), so a
worker error can only surface as `panicked`, never as `err`. -/
def ForEachDocIdBucketViewsConcurrent {α ε σ : Type} (P : Nat)
    (rows : List (String × α))
    (docProcessor : σ → List String → List α → σ × Option ε) (st : σ) :
    σ × RunOutcome ε :=
  runWorker docProcessor st (viewPages P rows)

/-- `CopyBucketWithCallback(preInsertCallback, postInsertCallback)`: scan
the source bucket's rows concurrently and run `copyEachDoc` on every
batch, threading the target bucket. -/
def CopyBucketWithCallback {α ε : Type} [Inhabited α] (P : Nat)
    (preInsertCallback : Option (List String → List α → Except ε (List String × List α)))
    (postInsertCallback : Option (List String → List α → Option ε))
    (sourceRows : List (String × α)) (target : Store α) :
    Store α × RunOutcome (CopyErr ε) :=
  ForEachDocIdBucketViewsConcurrent P sourceRows
    (fun s ids ds =>
      let r := copyEachDoc preInsertCallback postInsertCallback s ids ds
      (r.store, r.err))
    target

/-! ## The metadata-attach post-insert hook (`CopyBucketAddXATTRS`)

For the XATTR claims the target bucket is modelled with a CAS stamp and the
hidden metadata record per document.  The out-of-band concurrent writer the
conflict claims speak about is modelled by `interfere`: for each doc id it
says whether another writer mutates the document between the hook's
`Get` (which reads the CAS) and its `MutateInEx` (which uses it). -/

/-- The metadata record stored under the `Metadata` XATTR key:
`{"DateCopied": ..., "UpstreamSource": ...}`. -/
structure XattrVal where
  dateCopied : Nat
  upstreamSource : String
deriving DecidableEq, Repr

/-- A target-bucket document as the XATTR hook sees it: content, CAS stamp,
and the hidden metadata record (if attached). -/
structure XDoc (α : Type) where
  content : α
  cas : Nat
  xattrMeta : Option XattrVal
deriving DecidableEq, Repr

abbrev XBucket (α : Type) := List (String × XDoc α)

def xbucketGet {α : Type} (b : XBucket α) (k : String) : Option (XDoc α) :=
  lookupVal b k

/-- An out-of-band writer mutating document `k`: its CAS advances. -/
def xbucketBumpCas {α : Type} (b : XBucket α) (k : String) : XBucket α :=
  updateVal b k (fun d => { d with cas := d.cas + 1 })

/-- Errors the XATTR hook can return: `Get` on a missing document, or a CAS
mismatch reported by `MutateInEx(docId, ..., gocb.Cas(cas), ...)`. -/
inductive XErr where
  | notFound
  | casMismatch
deriving DecidableEq, Repr

/-- `MutateInEx(docId, SubdocDocFlagNone, gocb.Cas(cas), 0).UpsertEx(xattrKey,
xattrVal, SubdocFlagXattr).Execute()`: CAS-guarded upsert of the metadata
record; fails with a CAS-mismatch error when the stored stamp moved. -/
def mutateInUpsertXattr {α : Type} (b : XBucket α) (k : String) (cas : Nat)
    (v : XattrVal) : Except XErr (XBucket α) :=
  match xbucketGet b k with
  | none => .error .notFound
  | some d =>
    if d.cas = cas then
      .ok (updateVal b k (fun d0 => { d0 with xattrMeta := some v, cas := d0.cas + 1 }))
    else
      .error .casMismatch

/-- The `postInsertCallback` of `CopyBucketAddXATTRS`: for each doc id of
the batch in order, `Get` the doc to read its CAS, then run the CAS-guarded
metadata upsert; any error (including a CAS mismatch) is returned
immediately, which ends the loop — the remaining ids of the batch are not
processed. -/
def xattrPostInsertCallback {α : Type} (interfere : String → Bool)
    (sourceName : String) (now : Nat) (b : XBucket α) :
    List String → XBucket α × Option XErr
  | [] => (b, none)
  | docId :: rest =>
    match xbucketGet b docId with
    | none => (b, some .notFound)
    | some d =>
      let b1 := if interfere docId then xbucketBumpCas b docId else b
      match mutateInUpsertXattr b1 docId d.cas ⟨now, sourceName⟩ with
      | .error e => (b1, some e)
      | .ok b2 => xattrPostInsertCallback interfere sourceName now b2 rest

/-! ## The namespace-relabel pass (`AddNameSpaceToTypeFieldViaSubdoc`)

For the relabel claim each target document is modelled by its visible
`type` field (the only field the pass touches); the view scan emits one row
per document, whose value the callback ignores (it re-reads the field via
`GetSubdocField` instead). -/

/-- A target bucket as the relabel pass sees it: doc id ↦ current value of
the `type` field. -/
abbrev TypeBucket := List (String × String)

/-- `GetSubdocField(docId, "type")` over the relabel model. -/
def typeFieldGet (b : TypeBucket) (k : String) : Option String :=
  lookupVal b k

/-- `SetSubdocField(docId, "type", v)` over the relabel model: upsert of the
field on an existing document. -/
def typeFieldSet (b : TypeBucket) (k : String) (v : String) : TypeBucket :=
  updateVal b k (fun _ => v)

/-- One step of the `appendNamespaceToTypeField` callback: re-read the
field's current value, build `fmt.Sprintf("%v:%v", namespacePrefix, cur)`,
and write it back. -/
def relabelOne (p : String) (b : TypeBucket) (docId : String) :
    TypeBucket × Option String :=
  match typeFieldGet b docId with
  | none => (b, some ("Error getting subdoc field.  Doc: " ++ docId))
  | some cur => (typeFieldSet b docId (p ++ ":" ++ cur), none)

/-- The `appendNamespaceToTypeField` callback over one batch's doc ids:
sequential loop, aborting on the first error. -/
def relabelBatch (p : String) (b : TypeBucket) :
    List String → TypeBucket × Option String
  | [] => (b, none)
  | docId :: rest =>
    let r := relabelOne p b docId
    match r.2 with
    | some e => (r.1, some e)
    | none => relabelBatch p r.1 rest

/-- `AddNameSpaceToTypeFieldViaSubdoc(namespacePrefix)`: scan the target
bucket (the view emits one `(id, doc)` row per document; the relabel
callback ignores the row values and re-reads the field by id) and run the
relabel callback on each batch, threading the bucket. -/
def AddNameSpaceToTypeFieldViaSubdoc (P : Nat) (p : String) (b : TypeBucket) :
    TypeBucket × RunOutcome String :=
  ForEachDocIdBucketViewsConcurrent P b (fun s ids _ => relabelBatch p s ids) b

/-! ## Subdocument lookups (`GetSubdocField` / `GetXattrs`)

For the lookup claims a document carries named subdocument fields and named
XATTRs; a stored field may hold JSON `null` (modelled as `none`), which a
`Content` decode into an untyped `interface{}` out-parameter leaves as the
Go `nil` it was initialised to.  Per the store client's fragment API,
`Execute` fails at document level (missing doc) while a path-level failure
of the single lookup spec is reported by the fragment's `Content` call. -/

/-- A scalar JSON value for field contents. -/
inductive JVal where
  | str (s : String)
  | num (n : Int)
deriving DecidableEq, Repr

/-- A document as the subdoc lookups see it: visible fields and XATTRs,
each possibly holding JSON `null` (`none`). -/
structure SDoc where
  fields : List (String × Option JVal)
  xattrs : List (String × Option JVal)
deriving DecidableEq, Repr

abbrev SBucket := List (String × SDoc)

/-- Document-level lookup error from `Execute`. -/
inductive LookupErr where
  | keyNotFound
deriving DecidableEq, Repr

/-- `LookupIn(docId)...Execute()`: fails iff the document is missing. -/
def lookupInExecute (b : SBucket) (docId : String) : Except LookupErr SDoc :=
  match lookupVal b docId with
  | none => .error .keyNotFound
  | some d => .ok d

/-- `frag.Content(path, &out)` for a visible field: errors when the lookup
spec for `path` found nothing; otherwise decodes the fragment (JSON `null`
decodes to Go `nil`, i.e. `none`). -/
def fragContentField (d : SDoc) (path : String) : Except Unit (Option JVal) :=
  match lookupVal d.fields path with
  | none => .error ()
  | some v => .ok v

/-- `frag.Content(path, &out)` for an XATTR path. -/
def fragContentXattr (d : SDoc) (path : String) : Except Unit (Option JVal) :=
  match lookupVal d.xattrs path with
  | none => .error ()
  | some v => .ok v

/-- `GetSubdocField(docId, subdocKey)`: propagate the `Execute` error, then
call `frag.Content(subdocKey, &retValue)` *discarding its error* and return
whatever `retValue` holds (still `nil` when `Content` failed). -/
def GetSubdocField (b : SBucket) (docId subdocKey : String) :
    Except LookupErr (Option JVal) :=
  match lookupInExecute b docId with
  | .error e => .error e
  | .ok frag =>
    let retValue : Option JVal :=
      match fragContentField frag subdocKey with
      | .ok v => v
      | .error _ => none
    .ok retValue

/-- `GetXattrs(docId, xattrKey)`: same shape as `GetSubdocField`, over the
XATTR path, with `res.Content(xattrKey, &xattrVal)`'s error discarded. -/
def GetXattrs (b : SBucket) (docId xattrKey : String) :
    Except LookupErr (Option JVal) :=
  match lookupInExecute b docId with
  | .error e => .error e
  | .ok res =>
    let xattrVal : Option JVal :=
      match fragContentXattr res xattrKey with
      | .ok v => v
      | .error _ => none
    .ok xattrVal

/-! ## Unfolding and shape lemmas for the paginated scan -/

/-- A page with zero rows ends the scan: nil is returned, the processor is
not invoked. -/
theorem aux_term {α ε : Type} (P : Nat) (rows : List (String × α))
    (proc : List String → List α → Option ε) (skip : Nat)
    (h : ((rows.drop skip).take P).length = 0) :
    forEachViewsAux P rows proc skip = ([], none) := by
  rw [forEachViewsAux]
  simp [h]

/-- One non-terminal iteration of the page loop. -/
theorem aux_step {α ε : Type} (P : Nat) (rows : List (String × α))
    (proc : List String → List α → Option ε) (skip : Nat)
    (h : ((rows.drop skip).take P).length ≠ 0) :
    forEachViewsAux P rows proc skip =
      (let page := (rows.drop skip).take P
       match proc (page.map Prod.fst) (page.map Prod.snd) with
       | some e => ([(page.map Prod.fst, page.map Prod.snd)], some e)
       | none =>
         let rest := forEachViewsAux P rows proc (skip + page.length)
         ((page.map Prod.fst, page.map Prod.snd) :: rest.1, rest.2)) := by
  conv_lhs => rw [forEachViewsAux]
  simp only [dif_neg h]

/-- Every batch the scan hands to the processor is a pair of parallel
arrays of equal, positive length. -/
theorem viewBatches_wf {α ε : Type} (P : Nat) (rows : List (String × α))
    (proc : List String → List α → Option ε) (skip : Nat) :
    ∀ b ∈ (forEachViewsAux P rows proc skip).1,
      b.1.length = b.2.length ∧ 1 ≤ b.1.length := by
  refine forEachViewsAux.induct P rows proc
    (fun sk => ∀ b ∈ (forEachViewsAux P rows proc sk).1,
      b.1.length = b.2.length ∧ 1 ≤ b.1.length) ?_ ?_ ?_ skip
  · intro x hp
    rw [aux_term P rows proc x hp]
    intro b hb
    simp at hb
  · intro x hp e hproc
    rw [aux_step P rows proc x hp]
    simp only [hproc]
    intro b hb
    simp only [List.mem_singleton] at hb
    subst hb
    constructor
    · simp
    · simp only [List.length_map]
      exact Nat.one_le_iff_ne_zero.mpr hp
  · intro x hp hproc ih
    rw [aux_step P rows proc x hp]
    simp only [hproc]
    intro b hb
    simp only [List.mem_cons] at hb
    rcases hb with rfl | hb
    · constructor
      · simp
      · simp only [List.length_map]
        exact Nat.one_le_iff_ne_zero.mpr hp
    · exact ih b hb

theorem chunkSizes_sum (P M : Nat) (hP : 0 < P) : (chunkSizes P M).sum = M := by
  unfold chunkSizes
  rw [if_neg (Nat.pos_iff_ne_zero.mp hP)]
  by_cases h : M % P = 0
  · simp [h]
    exact Nat.div_mul_cancel (Nat.dvd_of_mod_eq_zero h)
  · rw [List.sum_append, List.sum_replicate, if_neg h]
    simp only [List.sum_cons, List.sum_nil, smul_eq_mul, Nat.add_zero]
    rw [Nat.mul_comm]
    exact Nat.div_add_mod M P

theorem chunkSizes_zero (P : Nat) : chunkSizes P 0 = [] := by
  unfold chunkSizes
  by_cases h : P = 0 <;> simp [h]

/-- The closed form satisfies the scan's page recursion: one page of
`min P M` rows, then the pages of the remaining rows. -/
theorem chunkSizes_succ (P M : Nat) (hP : 0 < P) (hM : 0 < M) :
    chunkSizes P M = min P M :: chunkSizes P (M - min P M) := by
  have hP' : P ≠ 0 := Nat.pos_iff_ne_zero.mp hP
  unfold chunkSizes
  rw [if_neg hP', if_neg hP']
  rcases le_or_lt P M with h | h
  · rw [Nat.min_eq_left h]
    obtain ⟨k, rfl⟩ : ∃ k, M = P + k := ⟨M - P, by omega⟩
    have h1 : (P + k) / P = k / P + 1 := by
      rw [Nat.add_comm]
      exact Nat.add_div_right k hP
    have h2 : (P + k) % P = k % P := Nat.add_mod_left P k
    have h3 : P + k - P = k := by omega
    rw [h1, h2, h3, List.replicate_succ]
    simp
  · rw [Nat.min_eq_right (le_of_lt h)]
    have h1 : M / P = 0 := Nat.div_eq_of_lt h
    have h2 : M % P = M := Nat.mod_eq_of_lt h
    have h3 : M - M = 0 := by omega
    rw [h1, h2, h3, if_neg (Nat.pos_iff_ne_zero.mp hM)]
    simp [chunkSizes_zero]

/-- When the processor never fails, the sequence of batch sizes the scan
produces is exactly `chunkSizes`, and the scan returns nil. -/
theorem aux_ok_sizes {α ε : Type} (P : Nat) (rows : List (String × α))
    (proc : List String → List α → Option ε)
    (hok : ∀ ids ds, proc ids ds = none) (skip : Nat) :
    ((forEachViewsAux P rows proc skip).1).map (fun b => b.1.length) =
        chunkSizes P (rows.length - skip)
    ∧ (forEachViewsAux P rows proc skip).2 = none := by
  refine forEachViewsAux.induct P rows proc
    (fun sk => ((forEachViewsAux P rows proc sk).1).map (fun b => b.1.length) =
        chunkSizes P (rows.length - sk)
      ∧ (forEachViewsAux P rows proc sk).2 = none) ?_ ?_ ?_ skip
  · intro x hp
    rw [aux_term P rows proc x hp]
    rw [List.length_take, List.length_drop] at hp
    constructor
    · rcases Nat.min_eq_zero_iff.mp hp with h | h
      · simp [chunkSizes, h]
      · rw [h, chunkSizes_zero]
        rfl
    · rfl
  · intro x hp e hproc
    rw [hok] at hproc
    exact absurd hproc (by simp)
  · intro x hp hproc ih
    rw [aux_step P rows proc x hp]
    simp only [hproc]
    have hlen : ((rows.drop x).take P).length = min P (rows.length - x) := by
      rw [List.length_take, List.length_drop]
    have hp0 : 0 < P := by
      rcases Nat.eq_zero_or_pos P with h | h
      · exact absurd (by rw [hlen, h]; simp) hp
      · exact h
    have hM0 : 0 < rows.length - x := by
      rcases Nat.eq_zero_or_pos (rows.length - x) with h | h
      · exact absurd (by rw [hlen, h]; simp) hp
      · exact h
    constructor
    · simp only [List.map_cons, List.length_map]
      rw [ih.1, chunkSizes_succ P (rows.length - x) hp0 hM0, hlen]
      congr 2
      omega
    · exact ih.2

theorem drop_take_len {β : Type} (P : Nat) (l : List β) :
    l.drop ((l.take P).length) = l.drop P := by
  rcases le_or_lt P l.length with h | h
  · rw [List.length_take, Nat.min_eq_left h]
  · rw [List.drop_eq_nil_of_le, List.drop_eq_nil_of_le]
    · exact le_of_lt h
    · rw [List.length_take]
      omega

/-- When the processor never fails, the concatenation of the ids of the
batches the scan hands out is exactly the ids of all rows, in order. -/
theorem aux_ok_join {α ε : Type} (P : Nat) (hP : 0 < P) (rows : List (String × α))
    (proc : List String → List α → Option ε)
    (hok : ∀ ids ds, proc ids ds = none) (skip : Nat) :
    (((forEachViewsAux P rows proc skip).1).map (fun b => b.1)).flatten =
      (rows.drop skip).map Prod.fst := by
  refine forEachViewsAux.induct P rows proc
    (fun sk => (((forEachViewsAux P rows proc sk).1).map (fun b => b.1)).flatten =
      (rows.drop sk).map Prod.fst) ?_ ?_ ?_ skip
  · intro x hp
    rw [aux_term P rows proc x hp]
    rw [List.length_take, List.length_drop] at hp
    have hd : rows.length - x = 0 := by
      rcases Nat.min_eq_zero_iff.mp hp with h | h
      · omega
      · exact h
    have hnil : rows.drop x = [] := List.drop_eq_nil_of_le (by omega)
    rw [hnil]
    rfl
  · intro x hp e hproc
    rw [hok] at hproc
    exact absurd hproc (by simp)
  · intro x hp hproc ih
    rw [aux_step P rows proc x hp]
    simp only [hproc]
    simp only [List.map_cons, List.flatten_cons]
    rw [ih]
    have h1 : rows.drop (x + ((rows.drop x).take P).length) =
        ((rows.drop x).drop ((rows.drop x).take P).length) := by
      rw [List.drop_drop, Nat.add_comm]
    rw [h1, drop_take_len P (rows.drop x), ← List.map_append, List.take_append_drop]

/-! ## Association-list lemmas for the bucket models -/

theorem lookupVal_nil {β : Type} (k : String) : lookupVal ([] : List (String × β)) k = none := rfl

theorem lookupVal_cons {β : Type} (k0 : String) (v0 : β) (rest : List (String × β)) (k : String) :
    lookupVal ((k0, v0) :: rest) k = if k0 = k then some v0 else lookupVal rest k := by
  by_cases h : k0 = k <;> simp [lookupVal, h]

theorem updateVal_nil {β : Type} (k : String) (f : β → β) :
    updateVal ([] : List (String × β)) k f = [] := rfl

theorem updateVal_cons {β : Type} (k0 : String) (v0 : β) (rest : List (String × β))
    (k : String) (f : β → β) :
    updateVal ((k0, v0) :: rest) k f =
      (if k0 = k then (k0, f v0) else (k0, v0)) :: updateVal rest k f := by
  by_cases h : k0 = k <;> simp [updateVal, h]

theorem lookupVal_update {β : Type} (b : List (String × β)) (k : String)
    (f : β → β) (k' : String) :
    lookupVal (updateVal b k f) k' =
      if k' = k then (lookupVal b k').map f else lookupVal b k' := by
  induction b with
  | nil =>
    by_cases h : k' = k <;> simp [lookupVal_nil, updateVal_nil, h]
  | cons kv rest ih =>
    obtain ⟨k0, v0⟩ := kv
    rw [updateVal_cons]
    by_cases h1 : k0 = k
    · rw [if_pos h1, lookupVal_cons, lookupVal_cons]
      by_cases h0 : k0 = k'
      · rw [if_pos h0, if_pos (by rw [← h0, h1]), if_pos h0]
        rfl
      · rw [if_neg h0, if_neg h0, ih]
    · rw [if_neg h1, lookupVal_cons, lookupVal_cons]
      by_cases h0 : k0 = k'
      · rw [if_pos h0, if_pos h0, if_neg (by rw [← h0]; exact h1)]
      · rw [if_neg h0, if_neg h0, ih]

theorem lookupVal_append {β : Type} (l1 l2 : List (String × β)) (k : String) :
    lookupVal (l1 ++ l2) k =
      match lookupVal l1 k with
      | some v => some v
      | none => lookupVal l2 k := by
  induction l1 with
  | nil => simp [lookupVal_nil]
  | cons kv rest ih =>
    obtain ⟨k0, v0⟩ := kv
    rw [List.cons_append, lookupVal_cons, lookupVal_cons]
    by_cases h0 : k0 = k
    · rw [if_pos h0, if_pos h0]
    · rw [if_neg h0, if_neg h0, ih]

theorem lookupVal_isSome_iff {β : Type} (b : List (String × β)) (k : String) :
    (lookupVal b k).isSome ↔ k ∈ b.map Prod.fst := by
  induction b with
  | nil => simp [lookupVal_nil]
  | cons kv rest ih =>
    obtain ⟨k0, v0⟩ := kv
    rw [lookupVal_cons]
    by_cases h0 : k0 = k
    · rw [if_pos h0]
      simp [h0]
    · rw [if_neg h0]
      simp only [List.map_cons, List.mem_cons]
      rw [ih]
      constructor
      · exact Or.inr
      · intro h
        rcases h with h | h
        · exact absurd h.symm h0
        · exact h

theorem updateVal_keys {β : Type} (b : List (String × β)) (k : String) (f : β → β) :
    (updateVal b k f).map Prod.fst = b.map Prod.fst := by
  induction b with
  | nil => rfl
  | cons kv rest ih =>
    obtain ⟨k0, v0⟩ := kv
    rw [updateVal_cons]
    by_cases h0 : k0 = k
    · rw [if_pos h0]
      simp only [List.map_cons]
      rw [ih]
    · rw [if_neg h0]
      simp only [List.map_cons]
      rw [ih]

/-! ## Store lemmas: inserts never clobber, successes stay written -/

/-- An insert never changes the binding of a key that is already present. -/
theorem storeGet_insert_preserve {α : Type} (s : Store α) (k k' : String)
    (v v' : α) (h : storeGet s k = some v) :
    storeGet (bucketInsert s k' v').1 k = some v := by
  unfold bucketInsert
  cases hk' : storeGet s k' with
  | some w => simpa using h
  | none =>
    simp only
    show lookupVal (s ++ [(k', v')]) k = some v
    rw [lookupVal_append]
    unfold storeGet at h
    rw [h]

/-- A successful insert writes the document. -/
theorem bucketInsert_of_absent {α : Type} (s : Store α) (k : String) (v : α)
    (h : storeGet s k = none) :
    bucketInsert s k v = (s ++ [(k, v)], none)
    ∧ storeGet (s ++ [(k, v)]) k = some v := by
  constructor
  · unfold bucketInsert
    rw [h]
  · show lookupVal (s ++ [(k, v)]) k = some v
    rw [lookupVal_append]
    unfold storeGet at h
    rw [h, lookupVal_cons, if_pos rfl]

/-- An insert that reports no error had found the key absent and appended
the document. -/
theorem bucketInsert_err_none {α : Type} (s : Store α) (k : String) (v : α)
    (h : (bucketInsert s k v).2 = none) :
    (bucketInsert s k v).1 = s ++ [(k, v)] ∧ storeGet s k = none := by
  unfold bucketInsert at h ⊢
  cases hk : storeGet s k with
  | some w => rw [hk] at h; simp at h
  | none => exact ⟨rfl, rfl⟩

/-- Bulk ops never change the binding of a pre-existing key. -/
theorem bulkInsert_preserve {α : Type} (items : List (String × α))
    (s : Store α) (k : String) (v : α) (h : storeGet s k = some v) :
    storeGet (bulkInsert s items).1 k = some v := by
  induction items generalizing s with
  | nil => simpa [bulkInsert] using h
  | cons kv rest ih =>
    obtain ⟨k0, v0⟩ := kv
    simp only [bulkInsert]
    exact ih _ (storeGet_insert_preserve s k k0 v v0 h)

/-- `bucket.Do` records one outcome per attempted item. -/
theorem bulkInsert_results_len {α : Type} (items : List (String × α))
    (s : Store α) : (bulkInsert s items).2.length = items.length := by
  induction items generalizing s with
  | nil => rfl
  | cons kv rest ih =>
    obtain ⟨k0, v0⟩ := kv
    simp only [bulkInsert, List.length_cons]
    rw [ih]

/-- A bulk item whose recorded outcome is success is present in the
resulting store: partial successes remain written. -/
theorem bulkInsert_succeeded {α : Type} (items : List (String × α))
    (s : Store α) (k : String) (h : (k, none) ∈ (bulkInsert s items).2) :
    (storeGet (bulkInsert s items).1 k).isSome := by
  induction items generalizing s with
  | nil => simp [bulkInsert] at h
  | cons kv rest ih =>
    obtain ⟨k0, v0⟩ := kv
    simp only [bulkInsert] at h ⊢
    rcases List.mem_cons.mp h with heq | hmem
    · have hk : k = k0 := congrArg Prod.fst heq
      have hr : (bucketInsert s k0 v0).2 = none := (congrArg Prod.snd heq).symm
      obtain ⟨h1, h2⟩ := bucketInsert_err_none s k0 v0 hr
      subst hk
      have hsome : storeGet (bucketInsert s k v0).1 k = some v0 := by
        rw [h1]
        exact (bucketInsert_of_absent s k v0 h2).2
      rw [bulkInsert_preserve rest _ k v0 hsome]
      rfl
    · exact ih _ hmem

/-- The batch loader issues exactly one insert attempt per item of the
batch. -/
theorem copyLoadBatch_attempts_len {α ε : Type} [Inhabited α] (s : Store α)
    (docIds : List String) (docs : List α) (hlen : docIds.length = docs.length) :
    ((copyLoadBatch (ε := ε) s docIds docs).2.1).length = docIds.length := by
  rcases docIds with _ | ⟨a, _ | ⟨b, rest⟩⟩
  · simp [copyLoadBatch, bulkInsert, firstBulkErr]
  · simp only [copyLoadBatch]
    split <;> rfl
  · have hz : ((a :: b :: rest).zip docs).length = (a :: b :: rest).length := by
      rw [List.length_zip, hlen, Nat.min_self]
    simp only [copyLoadBatch]
    split <;> simp only <;> rw [bulkInsert_results_len, hz]

/-- The batch loader never changes the binding of a pre-existing key. -/
theorem copyLoadBatch_preserve {α ε : Type} [Inhabited α] (s : Store α)
    (docIds : List String) (docs : List α) (k : String) (v : α)
    (h : storeGet s k = some v) :
    storeGet (copyLoadBatch (ε := ε) s docIds docs).1 k = some v := by
  rcases docIds with _ | ⟨a, _ | ⟨b, rest⟩⟩
  · simp only [copyLoadBatch]
    split <;> exact bulkInsert_preserve _ s k v h
  · simp only [copyLoadBatch]
    split <;> exact storeGet_insert_preserve s k a v _ h
  · simp only [copyLoadBatch]
    split <;> exact bulkInsert_preserve _ s k v h

/-- The whole batch step (hooks included) never changes the binding of a
pre-existing key: the pipeline only ever creates documents. -/
theorem copyEachDoc_preserve {α ε : Type} [Inhabited α]
    (pre : Option (List String → List α → Except ε (List String × List α)))
    (post : Option (List String → List α → Option ε)) (s : Store α)
    (docIds : List String) (docs : List α) (k : String) (v : α)
    (h : storeGet s k = some v) :
    storeGet (copyEachDoc pre post s docIds docs).store k = some v := by
  unfold copyEachDoc
  rcases pre with _ | f
  · simp only
    split <;> [exact copyLoadBatch_preserve s docIds docs k v h;
      skip]
    rcases post with _ | g
    · exact copyLoadBatch_preserve s docIds docs k v h
    · exact copyLoadBatch_preserve s docIds docs k v h
  · simp only
    split
    · exact h
    · rename_i ids ds heq
      split <;> [exact copyLoadBatch_preserve s ids ds k v h; skip]
      rcases post with _ | g
      · exact copyLoadBatch_preserve s ids ds k v h
      · exact copyLoadBatch_preserve s ids ds k v h

/-- Pre-existing bindings survive the worker run over any sequence of
batches. -/
theorem runWorker_copy_preserve {α ε : Type} [Inhabited α]
    (pre : Option (List String → List α → Except ε (List String × List α)))
    (post : Option (List String → List α → Option ε))
    (batches : List (List String × List α)) (st : Store α) (k : String) (v : α)
    (h : storeGet st k = some v) :
    storeGet (runWorker (fun s ids ds =>
        ((copyEachDoc pre post s ids ds).store, (copyEachDoc pre post s ids ds).err))
      st batches).1 k = some v := by
  induction batches generalizing st with
  | nil => exact h
  | cons b rest ih =>
    obtain ⟨ids, ds⟩ := b
    simp only [runWorker]
    split
    · exact copyEachDoc_preserve pre post st ids ds k v h
    · exact ih _ (copyEachDoc_preserve pre post st ids ds k v h)

/-! ## Claim C1: bulk-path error reporting -/

/-- C1 counterexample: a two-item bulk batch in which both inserts fail
with Already-Exists.  The batch call returns only the raw first per-item
error, which identifies no failed identifier at all — not an aggregate
error identifying every failed identifier and its cause. -/
theorem claim_C1_counterexample :
    (copyLoadBatch (ε := Unit) [("a", (1 : Nat)), ("b", 2)] ["a", "b"] [10, 20]).2.2 =
        some (.bulkItem .keyAlreadyExists)
    ∧ bulkFailedIds
        (copyLoadBatch (ε := Unit) [("a", (1 : Nat)), ("b", 2)] ["a", "b"] [10, 20]).2.1 =
        ["a", "b"]
    ∧ ∀ e, (copyLoadBatch (ε := Unit) [("a", (1 : Nat)), ("b", 2)] ["a", "b"] [10, 20]).2.2 =
        some e → e.reportedIds = [] := by
  refine ⟨rfl, rfl, ?_⟩
  intro e he
  cases he
  rfl

/-- C1 (amended): when any item of a multi-item bulk batch fails, the
batch call returns the first failed item's raw error (its cause only,
identifying no failed identifier), not an aggregate error listing every
failed identifier; items that succeeded remain written. -/
theorem claim_C1 {α ε : Type} [Inhabited α] (s : Store α)
    (docIds : List String) (docs : List α) (h2 : 2 ≤ docIds.length) :
    ((copyLoadBatch (ε := ε) s docIds docs).2.2 =
        (firstBulkErr (copyLoadBatch (ε := ε) s docIds docs).2.1).map CopyErr.bulkItem)
    ∧ (∀ e, (copyLoadBatch (ε := ε) s docIds docs).2.2 = some e →
        CopyErr.reportedIds e = [])
    ∧ (∀ k, (k, none) ∈ (copyLoadBatch (ε := ε) s docIds docs).2.1 →
        (storeGet (copyLoadBatch (ε := ε) s docIds docs).1 k).isSome) := by
  rcases docIds with _ | ⟨a, _ | ⟨b, rest⟩⟩
  · simp at h2
  · simp at h2
  · simp only [copyLoadBatch]
    refine ⟨?_, ?_, ?_⟩
    · split
      · rename_i cause heq
        rw [heq]
        rfl
      · rename_i heq
        rw [heq]
        rfl
    · split
      · intro e he
        cases he
        rfl
      · intro e he
        cases he
    · split <;> exact fun k hk => bulkInsert_succeeded _ s k hk

theorem claim_C1_witness :
    2 ≤ (["a", "b"] : List String).length
    ∧ (((copyLoadBatch (ε := Unit) [("a", (1 : Nat)), ("b", 2)] ["a", "b"] [10, 20]).2.2 =
        (firstBulkErr (copyLoadBatch (ε := Unit)
          [("a", (1 : Nat)), ("b", 2)] ["a", "b"] [10, 20]).2.1).map CopyErr.bulkItem)
    ∧ (∀ e, (copyLoadBatch (ε := Unit)
          [("a", (1 : Nat)), ("b", 2)] ["a", "b"] [10, 20]).2.2 = some e →
        CopyErr.reportedIds e = [])
    ∧ (∀ k, (k, none) ∈ (copyLoadBatch (ε := Unit)
          [("a", (1 : Nat)), ("b", 2)] ["a", "b"] [10, 20]).2.1 →
        (storeGet (copyLoadBatch (ε := Unit)
          [("a", (1 : Nat)), ("b", 2)] ["a", "b"] [10, 20]).1 k).isSome)) :=
  ⟨by decide, claim_C1 [("a", (1 : Nat)), ("b", 2)] ["a", "b"] [10, 20] (by decide)⟩

/-! ## Claim C6: the pre-write hook's output is what gets written -/

/-- C6: when the pre-insert callback rewrites a batch, the whole batch
step behaves exactly as if it had been handed the rewritten identifiers
and contents: the rewritten batch is what gets written, and (on a
successful write) the post-insert callback receives the rewritten
identifiers and contents, not the originals. -/
theorem claim_C6 {α ε : Type} [Inhabited α]
    (f : List String → List α → Except ε (List String × List α))
    (post : Option (List String → List α → Option ε)) (s : Store α)
    (docIds ids2 : List String) (docs docs2 : List α)
    (hf : f docIds docs = .ok (ids2, docs2)) :
    copyEachDoc (some f) post s docIds docs = copyEachDoc none post s ids2 docs2
    ∧ ((copyLoadBatch (ε := ε) s ids2 docs2).2.2 = none →
        ∀ g, (copyEachDoc (some f) (some g) s docIds docs).postInput =
          some (ids2, docs2)) := by
  constructor
  · simp only [copyEachDoc, hf]
  · intro hnone g
    simp only [copyEachDoc, hf, hnone]

theorem claim_C6_witness :
    ((fun (_ : List String) (_ : List Nat) =>
        (Except.ok (["x"], [0]) : Except Unit (List String × List Nat))) ["y"] [5] =
      .ok (["x"], [0]))
    ∧ (copyEachDoc (ε := Unit)
          (some (fun _ _ => .ok (["x"], [0]))) none [] ["y"] [5] =
        copyEachDoc (ε := Unit) none none [] ["x"] [0]
    ∧ ((copyLoadBatch (ε := Unit) [] ["x"] [0]).2.2 = none →
        ∀ g : List String → List Nat → Option Unit,
          (copyEachDoc (some (fun _ _ => .ok (["x"], [0]))) (some g) [] ["y"] [5]).postInput =
            some (["x"], [0]))) :=
  ⟨rfl, claim_C6 (fun _ _ => .ok (["x"], [0])) none [] ["y"] ["x"] [5] [0] rfl⟩

/-! ## Claim C8: no-clobber -/

/-- C8: a document already present in the target before a copy run is
never overwritten — its binding is unchanged by the whole
`CopyBucketWithCallback` run (which only ever issues creates) — and the
single-item path's unconditional create on a colliding identifier fails
with Already-Exists, wrapped with that identifier. -/
theorem claim_C8 {α ε : Type} [Inhabited α] (P : Nat)
    (pre : Option (List String → List α → Except ε (List String × List α)))
    (post : Option (List String → List α → Option ε))
    (sourceRows : List (String × α)) (target : Store α)
    (k : String) (v : α) (h : storeGet target k = some v) :
    storeGet (CopyBucketWithCallback (ε := ε) P pre post sourceRows target).1 k = some v
    ∧ ∀ docs : List α, (copyLoadBatch (ε := ε) target [k] docs).2.2 =
        some (.insertOne k .keyAlreadyExists) := by
  constructor
  · simp only [CopyBucketWithCallback, ForEachDocIdBucketViewsConcurrent]
    exact runWorker_copy_preserve pre post (viewPages P sourceRows) target k v h
  · intro docs
    simp only [copyLoadBatch]
    unfold bucketInsert
    rw [h]

theorem claim_C8_witness :
    storeGet [("a", (3 : Nat))] "a" = some 3
    ∧ (storeGet (CopyBucketWithCallback (ε := Unit) 1 none none [] [("a", (3 : Nat))]).1 "a" =
        some 3
    ∧ ∀ docs : List Nat, (copyLoadBatch (ε := Unit) [("a", (3 : Nat))] ["a"] docs).2.2 =
        some (.insertOne "a" .keyAlreadyExists)) :=
  ⟨rfl, claim_C8 1 none none [] [("a", (3 : Nat))] "a" 3 rfl⟩

/-! ## Claims C4, C5: scan completeness and termination -/

/-- C4: a scan of a collection of `M` rows with page size `P` feeds
exactly `M` documents to the loader (the batch sizes sum to `M`), the
loader issues exactly one insert item-attempt per document handed to it,
and with `M = 2500`, `P = 1000` the scan produces exactly the three pages
of sizes 1000, 1000, 500. -/
theorem claim_C4 {α ε : Type} [Inhabited α] (P : Nat) (hP : 0 < P)
    (rows : List (String × α)) :
    ((viewPages P rows).map (fun b => b.1.length)).sum = rows.length
    ∧ (∀ (s : Store α) (ids : List String) (ds : List α), ids.length = ds.length →
        ((copyLoadBatch (ε := ε) s ids ds).2.1).length = ids.length)
    ∧ (rows.length = 2500 → P = 1000 →
        (viewPages P rows).map (fun b => b.1.length) = [1000, 1000, 500]) := by
  have hsz := (aux_ok_sizes P rows (fun _ _ => (none : Option Empty))
    (fun _ _ => rfl) 0).1
  have hv : (viewPages P rows).map (fun b => b.1.length) =
      chunkSizes P rows.length := by
    show ((forEachViewsAux P rows _ 0).1).map (fun b => b.1.length) = _
    rw [hsz, Nat.sub_zero]
  refine ⟨?_, ?_, ?_⟩
  · rw [hv]
    exact chunkSizes_sum P rows.length hP
  · exact fun s ids ds hlen => copyLoadBatch_attempts_len s ids ds hlen
  · intro hM hP1000
    subst hP1000
    rw [hv, hM]
    decide

theorem claim_C4_witness :
    0 < 1000
    ∧ (((viewPages 1000 ([] : List (String × Nat))).map (fun b => b.1.length)).sum =
        ([] : List (String × Nat)).length
    ∧ (∀ (s : Store Nat) (ids : List String) (ds : List Nat), ids.length = ds.length →
        ((copyLoadBatch (ε := Unit) s ids ds).2.1).length = ids.length)
    ∧ (([] : List (String × Nat)).length = 2500 → 1000 = 1000 →
        (viewPages 1000 ([] : List (String × Nat))).map (fun b => b.1.length) =
          [1000, 1000, 500])) :=
  ⟨by decide, claim_C4 1000 (by decide) []⟩

/-- C5: a page with zero rows is terminal — the scan returns success
there, with nothing handed to the processor from that page — and in
particular the scan of an empty collection returns success on the very
first page with the processor never invoked (an empty batch trace). -/
theorem claim_C5 {α ε : Type} (P skip : Nat) (rows : List (String × α))
    (proc : List String → List α → Option ε)
    (hzero : ((rows.drop skip).take P).length = 0) :
    forEachViewsAux P rows proc skip = ([], none)
    ∧ ∀ (proc2 : List String → List α → Option ε),
        ForEachDocIdBucketViews P ([] : List (String × α)) proc2 = ([], none) := by
  constructor
  · exact aux_term P rows proc skip hzero
  · intro proc2
    exact aux_term P [] proc2 0 (by simp)

theorem claim_C5_witness :
    ((([("a", (1 : Nat))] : List (String × Nat)).drop 5).take 3).length = 0
    ∧ (forEachViewsAux 3 [("a", (1 : Nat))] (fun _ _ => (none : Option Unit)) 5 =
        ([], none)
    ∧ ∀ (proc2 : List String → List Nat → Option Unit),
        ForEachDocIdBucketViews 3 ([] : List (String × Nat)) proc2 = ([], none)) :=
  ⟨by decide, claim_C5 3 5 [("a", (1 : Nat))] (fun _ _ => (none : Option Unit)) (by decide)⟩

/-! ## Claim C9: batches handed to the processor are well-formed -/

/-- C9: every batch the view scan hands to a doc processor has identifier
and content arrays of equal length, and that length is at least 1 (a
zero-row page ends the scan before the processor is ever invoked). -/
theorem claim_C9 {α ε : Type} (P : Nat) (rows : List (String × α))
    (proc : List String → List α → Option ε)
    (b : List String × List α) (hb : b ∈ (ForEachDocIdBucketViews P rows proc).1) :
    b.1.length = b.2.length ∧ 1 ≤ b.1.length :=
  viewBatches_wf P rows proc 0 b hb

theorem claim_C9_witness :
    ((["a"], ([1] : List Nat)) ∈ (ForEachDocIdBucketViews 2 [("a", (1 : Nat))]
        (fun _ _ => (none : Option Unit))).1)
    ∧ ((["a"], ([1] : List Nat)).1.length = (["a"], ([1] : List Nat)).2.length
        ∧ 1 ≤ (["a"], ([1] : List Nat)).1.length) := by
  have h1 : ForEachDocIdBucketViews 2 [("a", (1 : Nat))]
      (fun _ _ => (none : Option Unit)) = ([(["a"], [1])], none) := by
    show forEachViewsAux 2 [("a", (1 : Nat))] (fun _ _ => (none : Option Unit)) 0 =
      ([(["a"], [1])], none)
    rw [aux_step 2 [("a", (1 : Nat))] (fun _ _ => (none : Option Unit)) 0 (by decide)]
    simp only [List.drop, List.take, List.map]
    rw [show (0 + ([("a", (1 : Nat))] : List (String × Nat)).length) = 1 by decide]
    rw [aux_term 2 [("a", (1 : Nat))] (fun _ _ => (none : Option Unit)) 1 (by decide)]
  have hb : (["a"], ([1] : List Nat)) ∈ (ForEachDocIdBucketViews 2 [("a", (1 : Nat))]
      (fun _ _ => (none : Option Unit))).1 := by
    rw [h1]
    exact List.mem_singleton.mpr rfl
  exact ⟨hb, claim_C9 2 [("a", (1 : Nat))] (fun _ _ => (none : Option Unit)) (["a"], [1]) hb⟩

/-! ## Claim C3: worker errors panic instead of being returned -/

/-- C3 (documents the code bug): when a worker's doc processor fails on a
batch, the concurrent scan's outcome is a panic raised inside the worker
goroutine, not an error returned by the top-level call — the function's
own return value can never carry a worker error (the source marks this
with "TODO: should propagate the error back rather than panicking here").
Evaluated at a one-row collection whose processor fails with error 7. -/
theorem claim_C3 :
    (ForEachDocIdBucketViewsConcurrent 1 [("a", (0 : Nat))]
        (fun (_ : Unit) _ _ => ((), some (7 : Nat))) ()).2 = .panicked 7
    ∧ (ForEachDocIdBucketViewsConcurrent 1 [("a", (0 : Nat))]
        (fun (_ : Unit) _ _ => ((), some (7 : Nat))) ()).2 ≠ .err 7 := by
  have hv : viewPages 1 [("a", (0 : Nat))] = [(["a"], [0])] := by
    have h1 : forEachViewsAux 1 [("a", (0 : Nat))]
        (fun _ _ => (none : Option Empty)) 0 = ([(["a"], [0])], none) := by
      rw [aux_step 1 [("a", (0 : Nat))] (fun _ _ => (none : Option Empty)) 0 (by decide)]
      simp only [List.drop, List.take, List.map]
      rw [show (0 + ([("a", (0 : Nat))] : List (String × Nat)).length) = 1 by decide]
      rw [aux_term 1 [("a", (0 : Nat))] (fun _ _ => (none : Option Empty)) 1 (by decide)]
    show (forEachViewsAux 1 [("a", (0 : Nat))]
        (fun _ _ => (none : Option Empty)) 0).1 = [(["a"], [1].map (fun _ => 0))]
    rw [h1]
    rfl
  constructor
  · simp only [ForEachDocIdBucketViewsConcurrent, hv, runWorker]
  · simp only [ForEachDocIdBucketViewsConcurrent, hv, runWorker]
    intro hcontr
    cases hcontr

/-! ## Claim C2: a CAS conflict aborts the batch hook -/

/-- C2 counterexample: a two-document batch in which an out-of-band
writer mutates document "a" between the hook's Get and its CAS-guarded
mutation.  The hook returns the CAS-mismatch error immediately — the
conflict is not skipped — and the sibling document "b" of the same batch
never gets its metadata attached. -/
theorem claim_C2_counterexample :
    (xattrPostInsertCallback (fun k => k == "a") "travel-sample" 99
        [("a", ⟨(), 0, none⟩), ("b", ⟨(), 0, none⟩)] ["a", "b"]).2 =
      some .casMismatch
    ∧ (xbucketGet (xattrPostInsertCallback (fun k => k == "a") "travel-sample" 99
        [("a", (⟨(), 0, none⟩ : XDoc Unit)), ("b", ⟨(), 0, none⟩)] ["a", "b"]).1
        "b").map XDoc.xattrMeta = some none := by
  decide

/-- C2 (amended): a CAS mismatch on the metadata mutation of one document
is not recoverable within the batch: the post-insert callback of
`CopyBucketAddXATTRS` returns the CAS-mismatch error at that document and
stops, so the remaining sibling documents of the batch are not processed
(only the interfering out-of-band write to the conflicting document has
happened; every other document is untouched). -/
theorem claim_C2 {α : Type} (interfere : String → Bool) (src : String) (now : Nat)
    (b : XBucket α) (docId : String) (d : XDoc α) (rest : List String)
    (hget : xbucketGet b docId = some d) (hint : interfere docId = true) :
    xattrPostInsertCallback interfere src now b (docId :: rest) =
      (xbucketBumpCas b docId, some .casMismatch)
    ∧ ∀ k, k ≠ docId → xbucketGet (xbucketBumpCas b docId) k = xbucketGet b k := by
  have hbump : xbucketGet (xbucketBumpCas b docId) docId =
      some { d with cas := d.cas + 1 } := by
    show lookupVal (updateVal b docId _) docId = _
    rw [lookupVal_update, if_pos rfl]
    unfold xbucketGet at hget
    rw [hget]
    rfl
  have hmut : mutateInUpsertXattr (xbucketBumpCas b docId) docId d.cas ⟨now, src⟩ =
      .error .casMismatch := by
    unfold mutateInUpsertXattr
    rw [hbump]
    simp only
    rw [if_neg (by simp)]
  constructor
  · simp only [xattrPostInsertCallback, hget, hint, if_true, hmut]
  · intro k hk
    show lookupVal (updateVal b docId _) k = lookupVal b k
    rw [lookupVal_update, if_neg hk]

theorem claim_C2_witness :
    xbucketGet [("a", (⟨(), 0, none⟩ : XDoc Unit))] "a" = some ⟨(), 0, none⟩
    ∧ (fun k => k == "a") "a" = true
    ∧ (xattrPostInsertCallback (fun k => k == "a") "src" 7
          [("a", (⟨(), 0, none⟩ : XDoc Unit))] ["a", "b"] =
        (xbucketBumpCas [("a", ⟨(), 0, none⟩)] "a", some .casMismatch)
    ∧ ∀ k, k ≠ "a" →
        xbucketGet (xbucketBumpCas [("a", (⟨(), 0, none⟩ : XDoc Unit))] "a") k =
          xbucketGet [("a", ⟨(), 0, none⟩)] k) :=
  ⟨by decide, rfl,
    claim_C2 (fun k => k == "a") "src" 7 [("a", ⟨(), 0, none⟩)] "a" ⟨(), 0, none⟩
      ["b"] (by decide) rfl⟩

/-! ## Claim C10: discarded Content errors -/

/-- C10: `GetSubdocField` and `GetXattrs` discard the error of the
fragment's `Content` call.  On a document that exists but lacks the
requested field/XATTR, the lookup succeeds and `Content` fails, yet both
functions return a nil value with a nil error — exactly what they return
when the stored field genuinely holds JSON null — so the two cases are
indistinguishable to a caller. -/
theorem claim_C10 :
    GetSubdocField [("doc1", ⟨[("other", some (.str "x"))], [("otherx", some (.str "y"))]⟩)]
        "doc1" "f" = .ok none
    ∧ GetXattrs [("doc1", ⟨[("other", some (.str "x"))], [("otherx", some (.str "y"))]⟩)]
        "doc1" "m" = .ok none
    ∧ GetSubdocField [("doc1", ⟨[("f", none)], [("m", none)]⟩)] "doc1" "f" = .ok none
    ∧ GetXattrs [("doc1", ⟨[("f", none)], [("m", none)]⟩)] "doc1" "m" = .ok none := by
  refine ⟨rfl, rfl, rfl, rfl⟩

/-! ## Claim C7: the relabel pass and its double-prefix behaviour -/

theorem typeFieldGet_set (b : TypeBucket) (k v k' : String) :
    typeFieldGet (typeFieldSet b k v) k' =
      if k' = k then (typeFieldGet b k').map (fun _ => v) else typeFieldGet b k' :=
  lookupVal_update b k (fun _ => v) k'

theorem relabelOne_keys (p : String) (b : TypeBucket) (a : String) :
    (relabelOne p b a).1.map Prod.fst = b.map Prod.fst := by
  unfold relabelOne
  cases h : typeFieldGet b a with
  | none => rfl
  | some cur =>
    dsimp only
    exact updateVal_keys b a _

/-- Splitting a relabel loop at an append: the loop stops at the first
error, otherwise continues on the bucket produced so far. -/
theorem relabelBatch_append (p : String) (l1 l2 : List String) (b : TypeBucket) :
    relabelBatch p b (l1 ++ l2) =
      match (relabelBatch p b l1).2 with
      | some _ => relabelBatch p b l1
      | none => relabelBatch p (relabelBatch p b l1).1 l2 := by
  induction l1 generalizing b with
  | nil => simp [relabelBatch]
  | cons a rest ih =>
    simp only [List.cons_append, relabelBatch]
    cases hr : (relabelOne p b a).2 with
    | some e => simp [hr]
    | none =>
      simp only [hr]
      exact ih _

/-- Relabelling a duplicate-free list of present ids succeeds and prefixes
exactly the listed documents (each read sees the document's current value,
which for distinct ids is its original value). -/
theorem relabelBatch_sem (p : String) (ids : List String) (b : TypeBucket)
    (hN : ids.Nodup) (hpres : ∀ k ∈ ids, (typeFieldGet b k).isSome) :
    (relabelBatch p b ids).2 = none
    ∧ ∀ k, typeFieldGet (relabelBatch p b ids).1 k =
        if k ∈ ids then (typeFieldGet b k).map (fun v => p ++ ":" ++ v)
        else typeFieldGet b k := by
  induction ids generalizing b with
  | nil =>
    constructor
    · rfl
    · intro k
      simp [relabelBatch]
  | cons a rest ih =>
    obtain ⟨v0, hv0⟩ : ∃ v0, typeFieldGet b a = some v0 :=
      Option.isSome_iff_exists.mp (hpres a (List.mem_cons_self a rest))
    have hone : relabelOne p b a = (typeFieldSet b a (p ++ ":" ++ v0), none) := by
      unfold relabelOne
      rw [hv0]
    have hN2 : rest.Nodup := (List.nodup_cons.mp hN).2
    have ha : a ∉ rest := (List.nodup_cons.mp hN).1
    have hpres2 : ∀ k ∈ rest, (typeFieldGet (typeFieldSet b a (p ++ ":" ++ v0)) k).isSome := by
      intro k hk
      rw [typeFieldGet_set, if_neg (fun he : k = a => ha (he ▸ hk))]
      exact hpres k (List.mem_cons_of_mem a hk)
    obtain ⟨ih1, ih2⟩ := ih (typeFieldSet b a (p ++ ":" ++ v0)) hN2 hpres2
    have hstep : relabelBatch p b (a :: rest) =
        relabelBatch p (typeFieldSet b a (p ++ ":" ++ v0)) rest := by
      simp only [relabelBatch, hone]
    constructor
    · rw [hstep]
      exact ih1
    · intro k
      rw [hstep, ih2 k]
      by_cases hk : k ∈ rest
      · rw [if_pos hk, if_pos (List.mem_cons_of_mem a hk)]
        congr 1
        rw [typeFieldGet_set, if_neg (fun he : k = a => ha (he ▸ hk))]
      · rw [if_neg hk]
        by_cases hka : k = a
        · subst hka
          rw [if_pos (List.mem_cons_self k rest), typeFieldGet_set, if_pos rfl, hv0]
          rfl
        · rw [if_neg (by simp [hka, hk]), typeFieldGet_set, if_neg hka]

theorem relabelBatch_keys (p : String) (ids : List String) (b : TypeBucket) :
    (relabelBatch p b ids).1.map Prod.fst = b.map Prod.fst := by
  induction ids generalizing b with
  | nil => rfl
  | cons a rest ih =>
    simp only [relabelBatch]
    cases hr : (relabelOne p b a).2 with
    | some e =>
      simp only [hr]
      exact relabelOne_keys p b a
    | none =>
      simp only [hr]
      rw [ih]
      exact relabelOne_keys p b a

/-- The single worker folding relabel batches equals one relabel loop over
the concatenated batch ids, when that loop succeeds. -/
theorem runWorker_relabel_ok {α : Type} (p : String)
    (batches : List (List String × List α)) (st : TypeBucket)
    (h : (relabelBatch p st ((batches.map (fun x => x.1)).flatten)).2 = none) :
    runWorker (fun s ids _ => relabelBatch p s ids) st batches =
      ((relabelBatch p st ((batches.map (fun x => x.1)).flatten)).1, .ok) := by
  induction batches generalizing st with
  | nil => rfl
  | cons bt rest ih =>
    obtain ⟨ids, ds⟩ := bt
    simp only [List.map_cons, List.flatten_cons] at h ⊢
    rw [relabelBatch_append] at h ⊢
    cases h1 : (relabelBatch p st ids).2 with
    | some e =>
      rw [h1] at h
      dsimp only at h
      rw [h1] at h
      exact absurd h (Option.some_ne_none e)
    | none =>
      rw [h1] at h
      dsimp only at h ⊢
      simp only [runWorker]
      rw [h1]
      dsimp only
      exact ih _ h

/-- One run of `AddNameSpaceToTypeFieldViaSubdoc`: every document's `type`
field gets the prefix applied to its current value, the run finishes
normally, and the id set is unchanged. -/
theorem addNameSpace_sem (P : Nat) (p : String) (b : TypeBucket)
    (hP : 0 < P) (hN : (b.map Prod.fst).Nodup) :
    (∀ k, typeFieldGet (AddNameSpaceToTypeFieldViaSubdoc P p b).1 k =
        (typeFieldGet b k).map (fun v => p ++ ":" ++ v))
    ∧ (AddNameSpaceToTypeFieldViaSubdoc P p b).2 = .ok
    ∧ (AddNameSpaceToTypeFieldViaSubdoc P p b).1.map Prod.fst = b.map Prod.fst := by
  have hjoin : (((viewPages P b).map (fun x => x.1)).flatten) = b.map Prod.fst := by
    show ((forEachViewsAux P b (fun _ _ => (none : Option Empty)) 0).1.map
      (fun x => x.1)).flatten = _
    rw [aux_ok_join P hP b _ (fun _ _ => rfl) 0, List.drop_zero]
  have hpres : ∀ k ∈ b.map Prod.fst, (typeFieldGet b k).isSome :=
    fun k hk => (lookupVal_isSome_iff b k).mpr hk
  obtain ⟨h2, hchar⟩ := relabelBatch_sem p (b.map Prod.fst) b hN hpres
  have hw : runWorker (fun s ids _ => relabelBatch p s ids) b (viewPages P b) =
      ((relabelBatch p b (b.map Prod.fst)).1, .ok) := by
    have hres := runWorker_relabel_ok p (viewPages P b) b (by rw [hjoin]; exact h2)
    rw [hjoin] at hres
    exact hres
  refine ⟨?_, ?_, ?_⟩
  · intro k
    show typeFieldGet (runWorker (fun s ids _ => relabelBatch p s ids) b
      (viewPages P b)).1 k = _
    rw [hw]
    simp only
    rw [hchar k]
    by_cases hk : k ∈ b.map Prod.fst
    · rw [if_pos hk]
    · rw [if_neg hk]
      have hnone : typeFieldGet b k = none := by
        cases hv : typeFieldGet b k with
        | none => rfl
        | some w =>
          exact absurd ((lookupVal_isSome_iff b k).mp (by rw [show lookupVal b k = some w from hv]; rfl)) hk
      rw [hnone]
      rfl
  · show (runWorker (fun s ids _ => relabelBatch p s ids) b (viewPages P b)).2 = .ok
    rw [hw]
  · show (runWorker (fun s ids _ => relabelBatch p s ids) b (viewPages P b)).1.map
      Prod.fst = b.map Prod.fst
    rw [hw]
    simp only
    rw [relabelBatch_keys]

/-- C7: running the unconditional namespace-relabel pass twice over the
same duplicate-free target double-prefixes: a document whose `type` field
held `v` ends at `p:p:v`, because each invocation re-reads the field's
current stored value immediately before mutating. -/
theorem claim_C7 (P : Nat) (p : String) (b : TypeBucket) (docId v : String)
    (hP : 0 < P) (hN : (b.map Prod.fst).Nodup)
    (hget : typeFieldGet b docId = some v) :
    typeFieldGet (AddNameSpaceToTypeFieldViaSubdoc P p
        (AddNameSpaceToTypeFieldViaSubdoc P p b).1).1 docId =
      some (p ++ ":" ++ (p ++ ":" ++ v))
    ∧ (AddNameSpaceToTypeFieldViaSubdoc P p b).2 = .ok := by
  obtain ⟨hsem1, hok1, hkeys1⟩ := addNameSpace_sem P p b hP hN
  have hN1 : ((AddNameSpaceToTypeFieldViaSubdoc P p b).1.map Prod.fst).Nodup := by
    rw [hkeys1]
    exact hN
  obtain ⟨hsem2, hok2, hkeys2⟩ :=
    addNameSpace_sem P p (AddNameSpaceToTypeFieldViaSubdoc P p b).1 hP hN1
  constructor
  · rw [hsem2 docId, hsem1 docId, hget]
    rfl
  · exact hok1

theorem claim_C7_witness :
    0 < 1
    ∧ (([("d", "airline")] : TypeBucket).map Prod.fst).Nodup
    ∧ typeFieldGet [("d", "airline")] "d" = some "airline"
    ∧ (typeFieldGet (AddNameSpaceToTypeFieldViaSubdoc 1 "foo"
        (AddNameSpaceToTypeFieldViaSubdoc 1 "foo" [("d", "airline")]).1).1 "d" =
          some ("foo" ++ ":" ++ ("foo" ++ ":" ++ "airline"))
    ∧ (AddNameSpaceToTypeFieldViaSubdoc 1 "foo" [("d", "airline")]).2 = .ok) :=
  ⟨by decide, by decide, rfl,
    claim_C7 1 "foo" [("d", "airline")] "d" "airline" (by decide) (by decide) rfl⟩

end GocbExample
